import Mathlib

/-!
Shallow embedding of the sync engine of the task-manager repository
(`src/services/syncService.ts`, `src/services/taskService.ts`).

Modelling conventions, fixed once for the whole file:

* Timestamps (`created_at`, `updated_at`, `last_synced_at`, `new Date()`)
  are `Int` values (milliseconds).  `new Date(x).getTime()` on a stored
  timestamp is the identity in this model.  Every `new Date()` taken during
  one sync cycle is modelled by the single cycle time `cfg.now`.
* The SQLite rows of the `tasks` and `sync_queue` tables are Lean
  structures; the database state is a `DbState` holding the two tables as
  lists plus the `meta` key/value row for `last_sync_timestamp`.
* The `data` TEXT column of `sync_queue` holds JSON text.  `JSON.stringify`
  and `JSON.parse` are external library functions with the round-trip
  property `parse (stringify v) = v` for JSON values, so the column is
  modelled as `Option Json`: `none` is a NULL/empty column, `some j` is the
  column holding the JSON text of `j`.  The repository's own contribution —
  the `{ data }` wrapper object built by `addToSyncQueue` and the fallback
  logic of `safeParseData` — is modelled explicitly.
* `retry_count` is `IFNULL`-normalised to 0 both in SQL and in TS
  (`item.retry_count ?? 0`), so it is modelled as a plain `Nat`.
* The remote transport (`axios.post` inside `processBatch`) is an oracle
  `BatchSyncRequest → Option BatchSyncResponse`; `none` models a raised
  transport error.  `processBatch` wraps any such error in
  `new Error("Faield to process batch")` (sic), which is the message every
  item of a failed batch is recorded with.
* Fresh UUIDs for enqueued items are an oracle `uuids : Nat → String`
  consumed in order via a counter in the cycle state; the `created_at` of a
  freshly inserted queue row is the table's default timestamp, i.e. the
  cycle time.
-/

namespace SyncSpec

/-- JSON values, as stored (stringified) in the `data` column and exchanged
with the server. -/
inductive Json where
  | null : Json
  | bool (b : Bool) : Json
  | num (n : Int) : Json
  | str (s : String) : Json
  | arr (elems : List Json) : Json
  | obj (fields : List (String × Json)) : Json
  deriving Repr, BEq

/-- `sync_status` column of a task row. -/
inductive SyncStatus where
  | pending | synced | error
  deriving Repr, DecidableEq

/-- `operation` column of a queue row. -/
inductive Operation where
  | create | update | delete
  deriving Repr, DecidableEq

/-- A row of the `tasks` table (the `Task` interface of `src/types`). -/
structure Task where
  id : String
  server_id : Option String := none
  title : String
  description : String
  completed : Bool
  is_deleted : Bool
  created_at : Int
  updated_at : Int
  sync_status : SyncStatus
  last_synced_at : Option Int := none
  deriving Repr

/-- A row of the `sync_queue` table (the `SyncQueueItem` interface). -/
structure SyncQueueItem where
  id : String
  task_id : String
  operation : Operation
  data : Option Json
  created_at : Int
  retry_count : Nat
  last_error : Option String := none
  updated_at : Option Int := none
  deriving Repr

/-- The persistent store: `tasks` table, `sync_queue` table, and the
`meta` row keyed `last_sync_timestamp` (`none` when the row is absent,
in which case the SQL `UPDATE meta` is a no-op). -/
structure DbState where
  tasks : List Task
  sync_queue : List SyncQueueItem
  meta_last_sync : Option Int := none
  deriving Repr

/-- A `Partial<Task>` as consumed by `updateSyncStatus` / `updateLocalOnly`:
each formal field optionally present.  (`server_id = some s` models the
field being present with value `s`; absent and `undefined` coincide.) -/
structure TaskPatch where
  server_id : Option String := none
  updated_at : Option Int := none
  title : Option String := none
  description : Option String := none
  completed : Option Bool := none
  is_deleted : Option Bool := none
  deriving Repr

/-- Per-item verdict in the server's batch response. -/
inductive Verdict where
  | success | conflict | error
  deriving Repr, DecidableEq

/-- One element of `resp.processed_items`. -/
structure ProcessedItem where
  client_id : String
  status : Verdict
  resolved_data : Option Task := none
  server_id : Option String := none
  error : Option String := none
  deriving Repr

/-- `BatchSyncResponse`; `processed_items ?? []` is folded into the field. -/
structure BatchSyncResponse where
  processed_items : List ProcessedItem
  deriving Repr

/-- One item of the outbound `BatchSyncRequest` built by `processBatch`. -/
structure BatchRequestItem where
  id : String
  task_id : String
  operation : Operation
  data : Json
  created_at : Int
  retry_count : Nat
  deriving Repr

/-- `BatchSyncRequest`: the payload `processBatch` posts to `/batch`. -/
structure BatchSyncRequest where
  items : List BatchRequestItem
  client_timestamp : Int
  deriving Repr

/-- One entry of `result.errors`. -/
structure SyncError where
  task_id : String
  operation : Operation
  error : String
  timestamp : Int
  deriving Repr, DecidableEq

/-- `SyncResult`: the cycle summary returned by `sync`. -/
structure SyncResult where
  success : Bool
  synced_items : Nat
  failed_items : Nat
  errors : List SyncError
  deriving Repr, DecidableEq

/-- Configuration: `SYNC_MAX_RETRY` (default 3), `SYNC_BATCH_SIZE`
(default 50), and the cycle's wall-clock time. -/
structure SyncConfig where
  maxRetry : Nat := 3
  batchSize : Nat := 50
  now : Int

/-! ## TaskService.getTask -/

/-- `TaskService.getTask`: `SELECT * FROM tasks WHERE id = ? AND
is_deleted = 0`, null when no row matches.  (The `!!` boolean coercions are
identities here since the model stores `Bool` directly.) -/
def getTask (db : DbState) (id : String) : Option Task :=
  db.tasks.find? (fun t => t.id = id ∧ t.is_deleted = false)

/-! ## TaskService.updateLocalOnly -/

/-- Apply to one task row exactly the columns `updateLocalOnly` sets:
every field of the patch that is present, nothing else (in particular
neither `sync_status` nor `last_synced_at`). -/
def applyLocalPatch (u : TaskPatch) (t : Task) : Task :=
  { t with
    title := u.title.getD t.title
    description := u.description.getD t.description
    completed := u.completed.getD t.completed
    updated_at := u.updated_at.getD t.updated_at
    is_deleted := u.is_deleted.getD t.is_deleted
    server_id := match u.server_id with
      | some s => some s
      | none => t.server_id }

/-- `TaskService.updateLocalOnly`: `UPDATE tasks SET <present fields>
WHERE id = ?`, no sync-queue side effects. -/
def updateLocalOnly (db : DbState) (taskId : String) (u : TaskPatch) : DbState :=
  { db with tasks := db.tasks.map (fun t => if t.id = taskId then applyLocalPatch u t else t) }

/-! ## SyncService.updateSyncStatus -/

/-- Apply to one task row the columns `updateSyncStatus` sets:
unconditionally `sync_status` and `last_synced_at = now`, and each
server-data field only when present (`!= null` / `typeof === 'boolean'`
guards in the source). -/
def applySyncStatus (status : SyncStatus) (now : Int) (sd : Option TaskPatch) (t : Task) : Task :=
  { t with
    sync_status := status
    last_synced_at := some now
    server_id := match sd.bind (fun d => d.server_id) with
      | some s => some s
      | none => t.server_id
    updated_at := (sd.bind (fun d => d.updated_at)).getD t.updated_at
    title := (sd.bind (fun d => d.title)).getD t.title
    description := (sd.bind (fun d => d.description)).getD t.description
    completed := (sd.bind (fun d => d.completed)).getD t.completed
    is_deleted := (sd.bind (fun d => d.is_deleted)).getD t.is_deleted }

/-- `SyncService.updateSyncStatus`: `UPDATE tasks SET sync_status = ?,
last_synced_at = ?, <present server fields> WHERE id = ?`. -/
def updateSyncStatus (db : DbState) (taskId : String) (status : SyncStatus)
    (sd : Option TaskPatch) (now : Int) : DbState :=
  { db with tasks := db.tasks.map (fun t => if t.id = taskId then applySyncStatus status now sd t else t) }

/-! ## SyncService.handleSyncError -/

/-- The queue-row update made by `handleSyncError`:
`retry_count = item.retry_count + 1`, `last_error`, fresh `updated_at`. -/
def bumpRetry (item : SyncQueueItem) (msg : String) (now : Int) (q : SyncQueueItem) : SyncQueueItem :=
  { q with retry_count := item.retry_count + 1, last_error := some msg, updated_at := some now }

/-- `SyncService.handleSyncError`: record the error on the queue row with
`retry_count` incremented to `item.retry_count + 1`; if that reaches
`MAX_RETRY`, additionally mark the owning task `error` via
`updateSyncStatus` (with no server data).  The queue row is updated, never
deleted. -/
def handleSyncError (db : DbState) (item : SyncQueueItem) (msg : String)
    (now : Int) (maxRetry : Nat) : DbState :=
  let nextRetry := item.retry_count + 1
  let queue1 := db.sync_queue.map (fun q => if q.id = item.id then bumpRetry item msg now q else q)
  let db1 : DbState := { db with sync_queue := queue1 }
  if nextRetry ≥ maxRetry then updateSyncStatus db1 item.task_id .error none now else db1

/-! ## SyncService.addToSyncQueue and safeParseData -/

/-- The fresh queue row inserted by `addToSyncQueue`: note the stored text
is `JSON.stringify({ data })`, i.e. the snapshot wrapped in an object under
the single key `"data"`.  `created_at` is the insert-time table default. -/
def newQueueItem (newId taskId : String) (op : Operation) (payload : Json) (now : Int) : SyncQueueItem :=
  { id := newId, task_id := taskId, operation := op
    data := some (Json.obj [("data", payload)])
    created_at := now, retry_count := 0 }

/-- `SyncService.addToSyncQueue`: `INSERT INTO sync_queue (id, task_id,
operation, data) VALUES (?, ?, ?, JSON.stringify({ data }))`. -/
def addToSyncQueue (db : DbState) (newId taskId : String) (op : Operation)
    (payload : Json) (now : Int) : DbState :=
  { db with sync_queue := db.sync_queue ++ [newQueueItem newId taskId op payload now] }

/-- `SyncService.safeParseData`: `{}` for a NULL/empty column or
unparseable text, otherwise the parsed JSON value (parsing stringified
JSON is the identity at the `Json` level). -/
def safeParseData (raw : Option Json) : Json :=
  match raw with
  | none => Json.obj []
  | some j => j

/-! ## SyncService.removeQueueItem, getQueueItemsToProcess, chunk -/

/-- `SyncService.removeQueueItem`: `DELETE FROM sync_queue WHERE id = ?`. -/
def removeQueueItem (db : DbState) (queueItemId : String) : DbState :=
  { db with sync_queue := db.sync_queue.filter (fun q => q.id ≠ queueItemId) }

/-- The `ORDER BY datetime(created_at) ASC` order on queue rows. -/
def leCreated (a b : SyncQueueItem) : Prop := a.created_at ≤ b.created_at

instance : DecidableRel leCreated := fun a b => inferInstanceAs (Decidable (a.created_at ≤ b.created_at))

instance : IsTotal SyncQueueItem leCreated := ⟨fun a b => Int.le_total a.created_at b.created_at⟩

instance : IsTrans SyncQueueItem leCreated := ⟨fun _ _ _ hab hbc => le_trans hab hbc⟩

/-- `SyncService.getQueueItemsToProcess`: `SELECT … FROM sync_queue WHERE
IFNULL(retry_count, 0) < MAX_RETRY ORDER BY datetime(created_at) ASC`. -/
def getQueueItemsToProcess (db : DbState) (maxRetry : Nat) : List SyncQueueItem :=
  List.insertionSort leCreated (db.sync_queue.filter (fun q => q.retry_count < maxRetry))

/-- The slicing loop of `SyncService.chunk` for positive size `s + 1`,
written with an explicit fuel (instantiated with the list length, which
bounds the number of loop iterations) so the recursion is structural;
each step takes one slice of `s + 1` elements, exactly like
`arr.slice(i, i + size)` with `i += size`. -/
def chunkGo (s : Nat) : Nat → List α → List (List α)
  | _, [] => []
  | 0, l => [l]
  | fuel + 1, x :: xs => (x :: xs).take (s + 1) :: chunkGo s fuel ((x :: xs).drop (s + 1))

/-- `SyncService.chunk`: `[arr]` when `size <= 0`, else consecutive slices
of length `size` (last one possibly shorter). -/
def chunk (l : List α) (size : Nat) : List (List α) :=
  match size with
  | 0 => [l]
  | s + 1 => chunkGo s l.length l

/-! ## SyncService.resolveConflict -/

/-- `SyncService.resolveConflict` (last-write-wins): the task with the
later `updated_at` wins, local on a tie.  The `console.warn` audit log has
no state effect and is omitted. -/
def resolveConflict (localTask serverTask : Task) : Task :=
  if localTask.updated_at ≥ serverTask.updated_at then localTask else serverTask

/-! ## SyncService.sync — cycle orchestration -/

/-- State threaded through one cycle: the store, the accumulating
`SyncResult`, and the index of the next fresh UUID. -/
structure CycleState where
  db : DbState
  result : SyncResult
  uuidIdx : Nat
  deriving Repr

/-- `byClientId.get(processed.client_id)`: the `Map` is built by inserting
every batch item keyed by its id, so a lookup returns the **last** batch
item with that id (`Map.set` overwrites). -/
def byClientIdGet (batch : List SyncQueueItem) (cid : String) : Option SyncQueueItem :=
  batch.foldl (fun acc it => if it.id = cid then some it else acc) none

/-- The server-data object of the `success` branch,
`{ ...processed.resolved_data, server_id: processed.server_id }`:
all task fields from `resolved_data` when present, `server_id` always
overridden by the response's top-level `server_id`. -/
def successPatch (rd : Option Task) (sid : Option String) : TaskPatch :=
  match rd with
  | none => { server_id := sid }
  | some t =>
    { server_id := sid, updated_at := some t.updated_at, title := some t.title
      description := some t.description, completed := some t.completed
      is_deleted := some t.is_deleted }

/-- `{ ...serverTask, server_id: serverTask.server_id }` of the server-wins
branch: every field of the server task, as a patch. -/
def taskPatchOf (t : Task) : TaskPatch :=
  { server_id := t.server_id, updated_at := some t.updated_at, title := some t.title
    description := some t.description, completed := some t.completed
    is_deleted := some t.is_deleted }

/-- The local snapshot enqueued when local wins a conflict:
`{ title, description, completed, updated_at, is_deleted }`. -/
def localSnapshotJson (t : Task) : Json :=
  Json.obj [("title", Json.str t.title), ("description", Json.str t.description),
    ("completed", Json.bool t.completed), ("updated_at", Json.num t.updated_at),
    ("is_deleted", Json.bool t.is_deleted)]

/-- The best-effort `UPDATE meta SET value = now WHERE key =
'last_sync_timestamp'` run after each reconciled item (a no-op when the
row is absent; errors are swallowed). -/
def touchMeta (now : Int) (cs : CycleState) : CycleState :=
  { cs with db := { cs.db with meta_last_sync := cs.db.meta_last_sync.map (fun _ => now) } }

/-- Append one error record to the cycle result. -/
def pushError (r : SyncResult) (taskId : String) (op : Operation) (msg : String) (now : Int) : SyncResult :=
  { r with errors := r.errors ++ [⟨taskId, op, msg, now⟩] }

/-- The body of the `for (const processed of resp.processed_items)` loop of
`sync`: dispatch one server verdict against its queue item.  The two
`continue` statements (unknown `client_id`; conflict with missing data)
skip the trailing meta update. -/
def processServerItem (cfg : SyncConfig) (uuids : Nat → String) (batch : List SyncQueueItem)
    (cs : CycleState) (p : ProcessedItem) : CycleState :=
  match byClientIdGet batch p.client_id with
  | none => cs
  | some queueItem =>
    match p.status with
    | .success =>
      let db1 := updateSyncStatus cs.db queueItem.task_id .synced
        (some (successPatch p.resolved_data p.server_id)) cfg.now
      let db2 := removeQueueItem db1 queueItem.id
      touchMeta cfg.now
        { cs with
          db := db2,
          result := { cs.result with synced_items := cs.result.synced_items + 1 } }
    | .conflict =>
      match getTask cs.db queueItem.task_id, p.resolved_data with
      | some localTask, some serverTask =>
        if localTask.updated_at ≥ serverTask.updated_at then
          -- `winner === local` (reference equality on the object returned
          -- by `resolveConflict`) holds exactly when the timestamp test does.
          let db1 := handleSyncError cs.db queueItem "Conflict: local newer, requeueing update"
            cfg.now cfg.maxRetry
          let db2 := addToSyncQueue db1 (uuids cs.uuidIdx) localTask.id .update
            (localSnapshotJson localTask) cfg.now
          touchMeta cfg.now
            { cs with
              db := db2, uuidIdx := cs.uuidIdx + 1,
              result := pushError
                { cs.result with failed_items := cs.result.failed_items + 1 }
                queueItem.task_id .update "Conflict resolved (local newer). Requeued update." cfg.now }
        else
          let db1 := updateLocalOnly cs.db queueItem.task_id (taskPatchOf serverTask)
          let db2 := updateSyncStatus db1 queueItem.task_id .synced (some (taskPatchOf serverTask)) cfg.now
          let db3 := removeQueueItem db2 queueItem.id
          touchMeta cfg.now
            { cs with
              db := db3,
              result := pushError
                { cs.result with synced_items := cs.result.synced_items + 1 }
                queueItem.task_id queueItem.operation
                "Conflict resolved using last-write-wins (server newer)" cfg.now }
      | _, _ =>
        -- missing data: error path, then `continue` (no meta update)
        let db1 := handleSyncError cs.db queueItem "Conflict but missing data" cfg.now cfg.maxRetry
        { cs with
          db := db1,
          result := pushError
            { cs.result with failed_items := cs.result.failed_items + 1 }
            queueItem.task_id queueItem.operation "Conflict: missing data to resolve" cfg.now }
    | .error =>
      let msg := p.error.getD "Server error"
      let db1 := handleSyncError cs.db queueItem msg cfg.now cfg.maxRetry
      touchMeta cfg.now
        { cs with
          db := db1,
          result := pushError
            { cs.result with failed_items := cs.result.failed_items + 1 }
            queueItem.task_id queueItem.operation msg cfg.now }

/-- The sweep over batch items the server did not echo back
(`!returnedIds.has(it.id)`): each is an implicit failure. -/
def failUnacked (cfg : SyncConfig) (returnedIds : List String)
    (cs : CycleState) (batch : List SyncQueueItem) : CycleState :=
  batch.foldl
    (fun c it =>
      if returnedIds.contains it.id then c
      else
        { c with
          db := handleSyncError c.db it "No server response for item" cfg.now cfg.maxRetry,
          result := pushError
            { c.result with failed_items := c.result.failed_items + 1 }
            it.task_id it.operation "No server response for item" cfg.now })
    cs

/-- The message of the error `processBatch` throws when the transport call
fails (the source's typo is kept verbatim). -/
def batchFailMsg : String := "Faield to process batch"

/-- The `catch` arm of the batch loop: every item of the failed batch gets
retry accounting with the wrapped transport error and is counted failed. -/
def failBatch (cfg : SyncConfig) (cs : CycleState) (batch : List SyncQueueItem) : CycleState :=
  batch.foldl
    (fun c it =>
      { c with
        db := handleSyncError c.db it batchFailMsg cfg.now cfg.maxRetry,
        result := pushError
          { c.result with failed_items := c.result.failed_items + 1 }
          it.task_id it.operation batchFailMsg cfg.now })
    cs

/-- The request `processBatch` builds: per item its id (the correlation
key), task id, operation, `safeParseData`-deserialized payload, creation
time and retry count, plus a client timestamp. -/
def buildBatchRequest (now : Int) (items : List SyncQueueItem) : BatchSyncRequest :=
  { items := items.map (fun it =>
      { id := it.id, task_id := it.task_id, operation := it.operation
        data := safeParseData it.data, created_at := it.created_at
        retry_count := it.retry_count })
    client_timestamp := now }

/-- One iteration of `for (const batch of batches)`: post the batch; on a
structural response reconcile each returned verdict then sweep unacked
items; on a transport error fail the whole batch and clear `success`. -/
def processOneBatch (cfg : SyncConfig) (uuids : Nat → String)
    (transport : BatchSyncRequest → Option BatchSyncResponse)
    (cs : CycleState) (batch : List SyncQueueItem) : CycleState :=
  match transport (buildBatchRequest cfg.now batch) with
  | some resp =>
    let cs1 := resp.processed_items.foldl (processServerItem cfg uuids batch) cs
    failUnacked cfg (resp.processed_items.map (fun p => p.client_id)) cs1 batch
  | none =>
    let cs1 := failBatch cfg cs batch
    { cs1 with result := { cs1.result with success := false } }

/-- `SyncService.sync`: offline short-circuit, fetch retryable queue items
in global FIFO order, slice into batches, process batches sequentially,
return the aggregated result. -/
def sync (cfg : SyncConfig) (connectivity : Bool)
    (transport : BatchSyncRequest → Option BatchSyncResponse)
    (uuids : Nat → String) (db : DbState) : DbState × SyncResult :=
  let result0 : SyncResult := { success := true, synced_items := 0, failed_items := 0, errors := [] }
  if connectivity = false then (db, { result0 with success := false })
  else
    let items := getQueueItemsToProcess db cfg.maxRetry
    if items.isEmpty then (db, result0)
    else
      let final := (chunk items cfg.batchSize).foldl (processOneBatch cfg uuids transport)
        ⟨db, result0, 0⟩
      (final.db, final.result)

/-! ## General lemmas about the embedded operations -/

theorem applySyncStatus_none (status : SyncStatus) (now : Int) (t : Task) :
    applySyncStatus status now none t
      = { t with sync_status := status, last_synced_at := some now } := rfl

theorem handleSyncError_sync_queue (db : DbState) (item : SyncQueueItem) (msg : String)
    (now : Int) (mr : Nat) :
    (handleSyncError db item msg now mr).sync_queue
      = db.sync_queue.map (fun q => if q.id = item.id then bumpRetry item msg now q else q) := by
  simp only [handleSyncError]
  split <;> rfl

theorem handleSyncError_tasks_ge (db : DbState) (item : SyncQueueItem) (msg : String)
    (now : Int) (mr : Nat) (h : item.retry_count + 1 ≥ mr) :
    (handleSyncError db item msg now mr).tasks
      = db.tasks.map (fun t =>
          if t.id = item.task_id then
            { t with sync_status := SyncStatus.error, last_synced_at := some now }
          else t) := by
  unfold handleSyncError
  rw [if_pos h]
  rfl

theorem handleSyncError_tasks_lt (db : DbState) (item : SyncQueueItem) (msg : String)
    (now : Int) (mr : Nat) (h : ¬ item.retry_count + 1 ≥ mr) :
    (handleSyncError db item msg now mr).tasks = db.tasks := by
  unfold handleSyncError
  rw [if_neg h]

theorem handleSyncError_meta (db : DbState) (item : SyncQueueItem) (msg : String)
    (now : Int) (mr : Nat) :
    (handleSyncError db item msg now mr).meta_last_sync = db.meta_last_sync := by
  simp only [handleSyncError]
  split <;> rfl

theorem handleSyncError_queue_length (db : DbState) (item : SyncQueueItem) (msg : String)
    (now : Int) (mr : Nat) :
    (handleSyncError db item msg now mr).sync_queue.length = db.sync_queue.length := by
  rw [handleSyncError_sync_queue, List.length_map]

theorem bump_mem_handleSyncError (db : DbState) (item : SyncQueueItem) (msg : String)
    (now : Int) (mr : Nat) (hmem : item ∈ db.sync_queue) :
    bumpRetry item msg now item ∈ (handleSyncError db item msg now mr).sync_queue := by
  rw [handleSyncError_sync_queue]
  have := List.mem_map_of_mem
    (fun q => if q.id = item.id then bumpRetry item msg now q else q) hmem
  simpa using this

theorem handleSyncError_preserves_other (db : DbState) (item : SyncQueueItem) (msg : String)
    (now : Int) (mr : Nat) (q : SyncQueueItem) (hq : q ∈ db.sync_queue)
    (hne : q.id ≠ item.id) :
    q ∈ (handleSyncError db item msg now mr).sync_queue := by
  rw [handleSyncError_sync_queue]
  exact List.mem_map.mpr ⟨q, hq, by rw [if_neg hne]⟩

theorem resolveConflict_eq_local_iff (localTask serverTask : Task) :
    resolveConflict localTask serverTask = localTask
      ↔ localTask.updated_at ≥ serverTask.updated_at := by
  unfold resolveConflict
  by_cases h : localTask.updated_at ≥ serverTask.updated_at
  · rw [if_pos h]
    exact iff_of_true rfl h
  · rw [if_neg h]
    constructor
    · intro heq
      have hts := congrArg Task.updated_at heq
      simp only [ge_iff_le, not_le] at h
      omega
    · intro hge
      exact absurd hge h

/-! ## C1 — last-write-wins conflict resolution -/

/-- C1: `resolveConflict` is deterministic (it is a pure function of the
two tasks) and returns the local task if and only if
`local.updated_at ≥ remote.updated_at`: the strictly later timestamp wins
and an exact tie is won by the local task. -/
theorem c1_resolveConflict_lww (localTask serverTask : Task) :
    resolveConflict localTask serverTask = localTask
      ↔ localTask.updated_at ≥ serverTask.updated_at :=
  resolveConflict_eq_local_iff localTask serverTask

/-! ## C2 — offline short-circuit -/

/-- C2: when the connectivity check returns false, `sync` returns
immediately with `success = false`, `synced_items = 0`, `failed_items = 0`
(and no errors), and the whole store — queue items, task rows and the
metadata entry alike — is returned exactly as it was. -/
theorem c2_offline_short_circuit (cfg : SyncConfig)
    (transport : BatchSyncRequest → Option BatchSyncResponse)
    (uuids : Nat → String) (db : DbState) :
    sync cfg false transport uuids db
      = (db, { success := false, synced_items := 0, failed_items := 0, errors := [] }) := rfl

/-! ## C3 — retry accounting -/

/-- C3: `handleSyncError` increments the queue item's `retry_count` by
exactly one and stores the error message and a fresh `updated_at` on the
queue row (every row carrying the item's id ends up with exactly these
values, and the bumped row is present); no row is deleted (the queue
length is unchanged); and when the new retry count reaches the configured
ceiling the owning task's `sync_status` becomes `error`. -/
theorem c3_handleSyncError_accounting (db : DbState) (item : SyncQueueItem) (msg : String)
    (now : Int) (mr : Nat) (hmem : item ∈ db.sync_queue) :
    bumpRetry item msg now item ∈ (handleSyncError db item msg now mr).sync_queue
    ∧ (∀ q ∈ (handleSyncError db item msg now mr).sync_queue, q.id = item.id →
        q.retry_count = item.retry_count + 1 ∧ q.last_error = some msg ∧ q.updated_at = some now)
    ∧ (handleSyncError db item msg now mr).sync_queue.length = db.sync_queue.length
    ∧ (item.retry_count + 1 ≥ mr → ∀ t ∈ db.tasks, t.id = item.task_id →
        ({ t with sync_status := SyncStatus.error, last_synced_at := some now } : Task)
          ∈ (handleSyncError db item msg now mr).tasks) := by
  refine ⟨?_, ?_, handleSyncError_queue_length db item msg now mr, ?_⟩
  · rw [handleSyncError_sync_queue]
    have := List.mem_map_of_mem
      (fun q => if q.id = item.id then bumpRetry item msg now q else q) hmem
    simpa using this
  · intro q hq hid
    rw [handleSyncError_sync_queue] at hq
    rcases List.mem_map.mp hq with ⟨q0, _, rfl⟩
    by_cases h0 : q0.id = item.id
    · simp [h0, bumpRetry]
    · rw [if_neg h0] at hid ⊢
      exact absurd hid h0
  · intro hceil t ht hid
    rw [handleSyncError_tasks_ge db item msg now mr hceil]
    exact List.mem_map.mpr ⟨t, ht, by simp [hid]⟩

/-! ## C9 — the poison transition also refreshes `last_synced_at` -/

/-- C9: when `handleSyncError` reaches the retry ceiling it marks the
owning task through `updateSyncStatus`, which unconditionally also sets
`last_synced_at` to the current time: after the poison transition every
row carrying the task id has `sync_status = error` **and**
`last_synced_at = some now`, even though no successful sync occurred — so
`last_synced_at` does not denote the time of the last successful sync. -/
theorem c9_poison_refreshes_last_synced_at (db : DbState) (item : SyncQueueItem) (msg : String)
    (now : Int) (mr : Nat) (hceil : item.retry_count + 1 ≥ mr) :
    (handleSyncError db item msg now mr).tasks
      = db.tasks.map (fun t =>
          if t.id = item.task_id then
            { t with sync_status := SyncStatus.error, last_synced_at := some now }
          else t)
    ∧ ∀ t ∈ db.tasks, t.id = item.task_id →
        ({ t with sync_status := SyncStatus.error, last_synced_at := some now } : Task)
          ∈ (handleSyncError db item msg now mr).tasks := by
  refine ⟨handleSyncError_tasks_ge db item msg now mr hceil, ?_⟩
  intro t ht hid
  rw [handleSyncError_tasks_ge db item msg now mr hceil]
  exact List.mem_map.mpr ⟨t, ht, by simp [hid]⟩

/-! ## C6 — queue selection and batching -/

theorem chunkGo_join (s : Nat) :
    ∀ (fuel : Nat) (l : List α), l.length ≤ fuel → (chunkGo s fuel l).flatten = l := by
  intro fuel
  induction fuel with
  | zero =>
    intro l hl
    rw [List.length_eq_zero.mp (Nat.le_zero.mp hl)]
    rfl
  | succ fuel ih =>
    intro l hl
    match l with
    | [] => rfl
    | x :: xs =>
      have hdrop : ((x :: xs).drop (s + 1)).length ≤ fuel := by
        rw [List.length_drop]
        simp only [List.length_cons] at hl ⊢
        omega
      simp only [chunkGo, List.flatten]
      rw [ih _ hdrop, List.take_append_drop]

theorem chunk_join (l : List α) (size : Nat) : (chunk l size).flatten = l := by
  match size with
  | 0 => simp [chunk]
  | s + 1 => exact chunkGo_join s l.length l le_rfl

/-- C6: a sync cycle draws its work from `getQueueItemsToProcess`, which
returns exactly the queue items whose `retry_count` is below the
configured ceiling — ordered by `created_at` ascending across all tasks —
and `chunk` partitions that list without adding, dropping or reordering
items, so an item whose `retry_count` has reached the ceiling is never
included in any batch. -/
theorem c6_cycle_selects_retryable_fifo (db : DbState) (mr bs : Nat) :
    (∀ q, q ∈ getQueueItemsToProcess db mr ↔ q ∈ db.sync_queue ∧ q.retry_count < mr)
    ∧ (getQueueItemsToProcess db mr).Sorted leCreated
    ∧ (getQueueItemsToProcess db mr).Perm
        (db.sync_queue.filter (fun q => q.retry_count < mr))
    ∧ (chunk (getQueueItemsToProcess db mr) bs).flatten = getQueueItemsToProcess db mr
    ∧ ∀ b ∈ chunk (getQueueItemsToProcess db mr) bs, ∀ q ∈ b, q.retry_count < mr := by
  have hmem : ∀ q, q ∈ getQueueItemsToProcess db mr ↔ q ∈ db.sync_queue ∧ q.retry_count < mr := by
    intro q
    simp [getQueueItemsToProcess, List.mem_insertionSort, List.mem_filter]
  refine ⟨hmem, List.sorted_insertionSort leCreated _, List.perm_insertionSort leCreated _,
    chunk_join _ _, ?_⟩
  intro b hb q hq
  have : q ∈ getQueueItemsToProcess db mr := by
    rw [← chunk_join (getQueueItemsToProcess db mr) bs]
    exact List.mem_flatten.mpr ⟨b, hb, hq⟩
  exact ((hmem q).mp this).2

/-! ## C8 — outbox payload round-trip -/

/-- Field lookup on a JSON object, as the server (or any reader of the
batch request) would address the deserialized payload. -/
def jsonGet (j : Json) (key : String) : Option Json :=
  match j with
  | Json.obj fields => (fields.find? (fun f => f.1 = key)).map (fun f => f.2)
  | _ => none

/-- C8 counterexample: enqueue the snapshot `{}` (the empty object).  The
stored `data` column deserializes — exactly as `safeParseData` does when
the batch request is built — to `{"data": {}}`, which is **not** the
original snapshot: `addToSyncQueue` serialized `{ data }`, wrapping the
snapshot under a `"data"` key. -/
theorem c8_counterexample :
    ((addToSyncQueue { tasks := [], sync_queue := [] } "q1" "t1" Operation.update
        (Json.obj []) 0).sync_queue.map (fun q => safeParseData q.data))
      = [Json.obj [("data", Json.obj [])]]
    ∧ Json.obj [("data", Json.obj [])] ≠ Json.obj [] := by
  refine ⟨rfl, ?_⟩
  intro h
  injection h with h1
  simp at h1

/-- C8 (amended): for every snapshot passed to `addToSyncQueue`, the queue
gains exactly one item, and deserializing its stored `data` field (as
`safeParseData` does when the batch request is built) yields the original
snapshot wrapped in an object under the single key `"data"` — so the
snapshot is recovered exactly by looking up that key, but is not the
deserialized value itself. -/
theorem c8_roundtrip_wrapped (db : DbState) (newId taskId : String) (op : Operation)
    (payload : Json) (now : Int) :
    (addToSyncQueue db newId taskId op payload now).sync_queue
      = db.sync_queue ++ [newQueueItem newId taskId op payload now]
    ∧ safeParseData (newQueueItem newId taskId op payload now).data
        = Json.obj [("data", payload)]
    ∧ jsonGet (safeParseData (newQueueItem newId taskId op payload now).data) "data"
        = some payload :=
  ⟨rfl, rfl, rfl⟩

/-! ## Projection helpers (all definitional) -/

theorem removeQueueItem_tasks (db : DbState) (i : String) :
    (removeQueueItem db i).tasks = db.tasks := rfl

theorem updateSyncStatus_sync_queue (db : DbState) (tid : String) (st : SyncStatus)
    (sd : Option TaskPatch) (now : Int) :
    (updateSyncStatus db tid st sd now).sync_queue = db.sync_queue := rfl

theorem updateLocalOnly_sync_queue (db : DbState) (tid : String) (u : TaskPatch) :
    (updateLocalOnly db tid u).sync_queue = db.sync_queue := rfl

theorem touchMeta_db_tasks (now : Int) (cs : CycleState) :
    (touchMeta now cs).db.tasks = cs.db.tasks := rfl

theorem touchMeta_db_sync_queue (now : Int) (cs : CycleState) :
    (touchMeta now cs).db.sync_queue = cs.db.sync_queue := rfl

theorem touchMeta_result (now : Int) (cs : CycleState) :
    (touchMeta now cs).result = cs.result := rfl

/-! ## C4 — success verdict -/

/-- The task used by the C4/C7/C10 scenarios. -/
def exTask : Task :=
  { id := "t1", title := "a", description := "", completed := false, is_deleted := false
    created_at := 0, updated_at := 0, sync_status := .pending }

/-- The queue item of the scenarios: one pending `create` for `exTask`. -/
def exItem : SyncQueueItem :=
  { id := "q1", task_id := "t1", operation := .create
    data := some (Json.obj [("data", Json.obj [])]), created_at := 0, retry_count := 0 }

/-- Store holding exactly `exTask` and `exItem`. -/
def exDb : DbState := { tasks := [exTask], sync_queue := [exItem] }

/-- Default configuration (`MAX_RETRY = 3`, `SYNC_BATCH_SIZE = 50`),
cycle time 100. -/
def exCfg : SyncConfig := { now := 100 }

/-- Fresh-UUID oracle for the scenarios. -/
def exUuids : Nat → String := fun n => "u" ++ toString n

/-- A server that answers every batch with a single `success` verdict for
`q1` carrying neither `resolved_data` nor a `server_id`. -/
def exTransportSuccess : BatchSyncRequest → Option BatchSyncResponse :=
  fun _ => some { processed_items := [{ client_id := "q1", status := .success }] }

/-- C4 counterexample: running `sync` against `exTransportSuccess` — whose
single result has status `success` — marks the task `synced`, removes the
queue item and counts one synced item, but the task's `server_id` is still
`none` afterwards: it is **not** filled in, because the server result
carried no `server_id` and `updateSyncStatus` only sets the column when
one is present. -/
theorem c4_counterexample :
    (sync exCfg true exTransportSuccess exUuids exDb).2.synced_items = 1
    ∧ ((sync exCfg true exTransportSuccess exUuids exDb).1.tasks.map (fun t => t.sync_status))
        = [SyncStatus.synced]
    ∧ ((sync exCfg true exTransportSuccess exUuids exDb).1.tasks.map (fun t => t.last_synced_at))
        = [some 100]
    ∧ ((sync exCfg true exTransportSuccess exUuids exDb).1.tasks.map (fun t => t.server_id))
        = [none]
    ∧ (sync exCfg true exTransportSuccess exUuids exDb).1.sync_queue = [] :=
  ⟨rfl, rfl, rfl, rfl, rfl⟩

/-- C4 (amended): for every batch item whose server result has status
`success`, `sync` marks the owning task `synced` with `last_synced_at`
filled in, sets `server_id` to the value carried by the server result when
one is present (and leaves the stored `server_id` unchanged otherwise),
removes the queue item from the sync queue, and increments the synced
count by one. -/
theorem c4_success_verdict (cfg : SyncConfig) (uuids : Nat → String)
    (batch : List SyncQueueItem) (cs : CycleState) (p : ProcessedItem) (item : SyncQueueItem)
    (hfind : byClientIdGet batch p.client_id = some item)
    (hsucc : p.status = Verdict.success) :
    processServerItem cfg uuids batch cs p
      = touchMeta cfg.now
          { cs with
            db := removeQueueItem
              (updateSyncStatus cs.db item.task_id SyncStatus.synced
                (some (successPatch p.resolved_data p.server_id)) cfg.now) item.id,
            result := { cs.result with synced_items := cs.result.synced_items + 1 } }
    ∧ (processServerItem cfg uuids batch cs p).result.synced_items
        = cs.result.synced_items + 1
    ∧ (processServerItem cfg uuids batch cs p).result.failed_items
        = cs.result.failed_items
    ∧ (∀ q ∈ (processServerItem cfg uuids batch cs p).db.sync_queue, q.id ≠ item.id)
    ∧ (∀ t ∈ cs.db.tasks, t.id = item.task_id →
        applySyncStatus SyncStatus.synced cfg.now
            (some (successPatch p.resolved_data p.server_id)) t
          ∈ (processServerItem cfg uuids batch cs p).db.tasks)
    ∧ (∀ t : Task,
        (applySyncStatus SyncStatus.synced cfg.now
          (some (successPatch p.resolved_data p.server_id)) t).sync_status = SyncStatus.synced
        ∧ (applySyncStatus SyncStatus.synced cfg.now
            (some (successPatch p.resolved_data p.server_id)) t).last_synced_at = some cfg.now
        ∧ (applySyncStatus SyncStatus.synced cfg.now
            (some (successPatch p.resolved_data p.server_id)) t).server_id
          = match p.server_id with
            | some s => some s
            | none => t.server_id) := by
  have heq : processServerItem cfg uuids batch cs p
      = touchMeta cfg.now
          { cs with
            db := removeQueueItem
              (updateSyncStatus cs.db item.task_id SyncStatus.synced
                (some (successPatch p.resolved_data p.server_id)) cfg.now) item.id,
            result := { cs.result with synced_items := cs.result.synced_items + 1 } } := by
    simp only [processServerItem, hfind, hsucc]
  refine ⟨heq, ?_, ?_, ?_, ?_, ?_⟩
  · rw [heq, touchMeta_result]
  · rw [heq, touchMeta_result]
  · intro q hq
    rw [heq, touchMeta_db_sync_queue] at hq
    simp only [removeQueueItem, updateSyncStatus] at hq
    exact of_decide_eq_true (List.mem_filter.mp hq).2
  · intro t ht hid
    rw [heq, touchMeta_db_tasks]
    simp only [removeQueueItem_tasks, updateSyncStatus]
    exact List.mem_map.mpr ⟨t, ht, by simp [hid]⟩
  · intro t
    refine ⟨rfl, rfl, ?_⟩
    cases hsid : p.server_id <;> cases hrd : p.resolved_data <;>
      simp [applySyncStatus, successPatch, hsid, hrd]

/-! ## C10 — conflict verdict for a soft-deleted task -/

/-- C10: when a conflict verdict arrives for a queue item whose task is
locally soft-deleted (every stored row with that id has
`is_deleted = true`, e.g. a pending `delete` operation), `getTask` returns
`none` — its query filters `is_deleted = 0` — so `sync` takes the
missing-data error path: retry accounting on the queue item, failed count
incremented, error `"Conflict: missing data to resolve"` recorded, and
LWW resolution is never evaluated (no item is removed and no update is
re-enqueued; the metadata row is not even touched, because of the
`continue`). -/
theorem c10_conflict_soft_deleted (cfg : SyncConfig) (uuids : Nat → String)
    (batch : List SyncQueueItem) (cs : CycleState) (p : ProcessedItem) (item : SyncQueueItem)
    (hfind : byClientIdGet batch p.client_id = some item)
    (hconf : p.status = Verdict.conflict)
    (hdel : ∀ t ∈ cs.db.tasks, t.id = item.task_id → t.is_deleted = true) :
    getTask cs.db item.task_id = none
    ∧ processServerItem cfg uuids batch cs p
        = { cs with
            db := handleSyncError cs.db item "Conflict but missing data" cfg.now cfg.maxRetry,
            result := pushError
              { cs.result with failed_items := cs.result.failed_items + 1 }
              item.task_id item.operation "Conflict: missing data to resolve" cfg.now }
    ∧ (processServerItem cfg uuids batch cs p).result.failed_items
        = cs.result.failed_items + 1
    ∧ (processServerItem cfg uuids batch cs p).result.synced_items
        = cs.result.synced_items
    ∧ (processServerItem cfg uuids batch cs p).result.errors
        = cs.result.errors
          ++ [⟨item.task_id, item.operation, "Conflict: missing data to resolve", cfg.now⟩]
    ∧ (processServerItem cfg uuids batch cs p).db.sync_queue.length
        = cs.db.sync_queue.length
    ∧ (processServerItem cfg uuids batch cs p).db.meta_last_sync
        = cs.db.meta_last_sync := by
  have hg : getTask cs.db item.task_id = none := by
    unfold getTask
    rw [List.find?_eq_none]
    intro t ht
    simp only [Bool.and_eq_true, decide_eq_true_eq, not_and]
    intro hid hdel'
    rw [hdel t ht hid] at hdel'
    exact Bool.noConfusion hdel'
  have heq : processServerItem cfg uuids batch cs p
      = { cs with
          db := handleSyncError cs.db item "Conflict but missing data" cfg.now cfg.maxRetry,
          result := pushError
            { cs.result with failed_items := cs.result.failed_items + 1 }
            item.task_id item.operation "Conflict: missing data to resolve" cfg.now } := by
    cases hrd : p.resolved_data <;> simp only [processServerItem, hfind, hconf, hg, hrd]
  refine ⟨hg, heq, ?_, ?_, ?_, ?_, ?_⟩
  · rw [heq]
    exact rfl
  · rw [heq]
    exact rfl
  · rw [heq]
    simp [pushError]
  · rw [heq]
    exact handleSyncError_queue_length cs.db item _ cfg.now cfg.maxRetry
  · rw [heq]
    exact handleSyncError_meta cs.db item _ cfg.now cfg.maxRetry

/-! ## C7 — conflict verdict where local wins -/

/-- C7: for a conflict verdict whose LWW resolution returns the local task
(`resolveConflict localTask serverTask = localTask`), `sync` enqueues a
fresh `update` queue item whose stored payload is the current local
snapshot (title, description, completed, updated_at, is_deleted), records
the outcome for the original item as a conflict-retry via retry
accounting (`retry_count + 1`, error
`"Conflict: local newer, requeueing update"`), and increments the failed
count — not the synced count — by one for this cycle. -/
theorem c7_conflict_local_wins (cfg : SyncConfig) (uuids : Nat → String)
    (batch : List SyncQueueItem) (cs : CycleState) (p : ProcessedItem)
    (item : SyncQueueItem) (localTask serverTask : Task)
    (hfind : byClientIdGet batch p.client_id = some item)
    (hconf : p.status = Verdict.conflict)
    (hloc : getTask cs.db item.task_id = some localTask)
    (hrd : p.resolved_data = some serverTask)
    (hwin : resolveConflict localTask serverTask = localTask)
    (hmem : item ∈ cs.db.sync_queue) :
    processServerItem cfg uuids batch cs p
      = touchMeta cfg.now
          { cs with
            db := addToSyncQueue
              (handleSyncError cs.db item "Conflict: local newer, requeueing update"
                cfg.now cfg.maxRetry)
              (uuids cs.uuidIdx) localTask.id Operation.update
              (localSnapshotJson localTask) cfg.now,
            uuidIdx := cs.uuidIdx + 1,
            result := pushError
              { cs.result with failed_items := cs.result.failed_items + 1 }
              item.task_id Operation.update
              "Conflict resolved (local newer). Requeued update." cfg.now }
    ∧ newQueueItem (uuids cs.uuidIdx) localTask.id Operation.update
        (localSnapshotJson localTask) cfg.now
        ∈ (processServerItem cfg uuids batch cs p).db.sync_queue
    ∧ (newQueueItem (uuids cs.uuidIdx) localTask.id Operation.update
        (localSnapshotJson localTask) cfg.now).operation = Operation.update
    ∧ safeParseData (newQueueItem (uuids cs.uuidIdx) localTask.id Operation.update
        (localSnapshotJson localTask) cfg.now).data
        = Json.obj [("data", localSnapshotJson localTask)]
    ∧ bumpRetry item "Conflict: local newer, requeueing update" cfg.now item
        ∈ (processServerItem cfg uuids batch cs p).db.sync_queue
    ∧ (processServerItem cfg uuids batch cs p).result.failed_items
        = cs.result.failed_items + 1
    ∧ (processServerItem cfg uuids batch cs p).result.synced_items
        = cs.result.synced_items := by
  have hge : localTask.updated_at ≥ serverTask.updated_at :=
    (resolveConflict_eq_local_iff localTask serverTask).mp hwin
  have heq : processServerItem cfg uuids batch cs p
      = touchMeta cfg.now
          { cs with
            db := addToSyncQueue
              (handleSyncError cs.db item "Conflict: local newer, requeueing update"
                cfg.now cfg.maxRetry)
              (uuids cs.uuidIdx) localTask.id Operation.update
              (localSnapshotJson localTask) cfg.now,
            uuidIdx := cs.uuidIdx + 1,
            result := pushError
              { cs.result with failed_items := cs.result.failed_items + 1 }
              item.task_id Operation.update
              "Conflict resolved (local newer). Requeued update." cfg.now } := by
    simp only [processServerItem, hfind, hconf, hloc, hrd, if_pos hge]
  refine ⟨heq, ?_, rfl, rfl, ?_, ?_, ?_⟩
  · rw [heq, touchMeta_db_sync_queue]
    simp [addToSyncQueue]
  · rw [heq, touchMeta_db_sync_queue]
    simp only [addToSyncQueue]
    exact List.mem_append_left _
      (bump_mem_handleSyncError cs.db item _ cfg.now cfg.maxRetry hmem)
  · rw [heq, touchMeta_result]
    exact rfl
  · rw [heq, touchMeta_result]
    exact rfl

/-! ## C5 — whole-batch transport failure -/

/-- The per-item accounting step of the `catch` arm, at store level. -/
def failStepDb (cfg : SyncConfig) (d : DbState) (it : SyncQueueItem) : DbState :=
  handleSyncError d it batchFailMsg cfg.now cfg.maxRetry

theorem failBatch_cons (cfg : SyncConfig) (cs : CycleState) (a : SyncQueueItem)
    (tl : List SyncQueueItem) :
    failBatch cfg cs (a :: tl)
      = failBatch cfg
          { cs with
            db := failStepDb cfg cs.db a,
            result := pushError
              { cs.result with failed_items := cs.result.failed_items + 1 }
              a.task_id a.operation batchFailMsg cfg.now }
          tl := rfl

theorem failBatch_db (cfg : SyncConfig) (batch : List SyncQueueItem) :
    ∀ cs : CycleState, (failBatch cfg cs batch).db = batch.foldl (failStepDb cfg) cs.db := by
  induction batch with
  | nil => intro cs; rfl
  | cons a tl ih =>
    intro cs
    rw [failBatch_cons, ih, List.foldl_cons]

theorem failBatch_failed (cfg : SyncConfig) (batch : List SyncQueueItem) :
    ∀ cs : CycleState,
      (failBatch cfg cs batch).result.failed_items
        = cs.result.failed_items + batch.length := by
  induction batch with
  | nil => intro cs; rfl
  | cons a tl ih =>
    intro cs
    rw [failBatch_cons, ih, List.length_cons]
    simp only [pushError]
    omega

theorem failBatch_synced (cfg : SyncConfig) (batch : List SyncQueueItem) :
    ∀ cs : CycleState,
      (failBatch cfg cs batch).result.synced_items = cs.result.synced_items := by
  induction batch with
  | nil => intro cs; rfl
  | cons a tl ih =>
    intro cs
    rw [failBatch_cons, ih]
    rfl

theorem foldl_failStepDb_queue_length (cfg : SyncConfig) (batch : List SyncQueueItem) :
    ∀ d : DbState,
      (batch.foldl (failStepDb cfg) d).sync_queue.length = d.sync_queue.length := by
  induction batch with
  | nil => intro d; rfl
  | cons a tl ih =>
    intro d
    rw [List.foldl_cons, ih]
    exact handleSyncError_queue_length d a batchFailMsg cfg.now cfg.maxRetry

theorem foldl_failStepDb_preserve (cfg : SyncConfig) (batch : List SyncQueueItem) :
    ∀ (d : DbState) (q : SyncQueueItem), q ∈ d.sync_queue → (∀ b ∈ batch, q.id ≠ b.id) →
      q ∈ (batch.foldl (failStepDb cfg) d).sync_queue := by
  induction batch with
  | nil => intro d q hq _; exact hq
  | cons a tl ih =>
    intro d q hq hne
    rw [List.foldl_cons]
    exact ih _ q
      (handleSyncError_preserves_other d a batchFailMsg cfg.now cfg.maxRetry q hq
        (hne a (List.mem_cons_self a tl)))
      (fun b hb => hne b (List.mem_cons_of_mem a hb))

theorem foldl_failStepDb_bump (cfg : SyncConfig) (batch : List SyncQueueItem) :
    ∀ (d : DbState) (it : SyncQueueItem), it ∈ batch →
      batch.Pairwise (fun a b => a.id ≠ b.id) → it ∈ d.sync_queue →
      bumpRetry it batchFailMsg cfg.now it ∈ (batch.foldl (failStepDb cfg) d).sync_queue := by
  induction batch with
  | nil => intro d it hit; exact absurd hit (List.not_mem_nil it)
  | cons a tl ih =>
    intro d it hit hpw hmem
    have hpw' := List.pairwise_cons.mp hpw
    rw [List.foldl_cons]
    rcases List.mem_cons.mp hit with rfl | hit'
    · exact foldl_failStepDb_preserve cfg tl _ _
        (bump_mem_handleSyncError d it batchFailMsg cfg.now cfg.maxRetry hmem)
        (fun b hb => hpw'.1 b hb)
    · exact ih _ it hit' hpw'.2
        (handleSyncError_preserves_other d a batchFailMsg cfg.now cfg.maxRetry it hmem
          (fun h => hpw'.1 it hit' h.symm))

/-- C5: when the batch transport call raises (the transport oracle returns
`none`), every item of that batch receives retry accounting with the
wrapped transport error (`retry_count + 1`, `last_error` stored), every
item is counted as failed, no item of the batch is removed from the queue
(the queue length is preserved and each bumped row is present), the
cycle's overall `success` becomes `false`, and processing continues with
the next batch: folding the batch list is exactly processing this batch
and then folding the remaining batches from the resulting state. -/
theorem c5_batch_transport_failure (cfg : SyncConfig) (uuids : Nat → String)
    (transport : BatchSyncRequest → Option BatchSyncResponse)
    (cs : CycleState) (batch : List SyncQueueItem) (rest : List (List SyncQueueItem))
    (hfail : transport (buildBatchRequest cfg.now batch) = none)
    (hnd : batch.Pairwise (fun a b => a.id ≠ b.id))
    (hsub : ∀ it ∈ batch, it ∈ cs.db.sync_queue) :
    (processOneBatch cfg uuids transport cs batch).result.failed_items
        = cs.result.failed_items + batch.length
    ∧ (processOneBatch cfg uuids transport cs batch).result.synced_items
        = cs.result.synced_items
    ∧ (processOneBatch cfg uuids transport cs batch).result.success = false
    ∧ (processOneBatch cfg uuids transport cs batch).db.sync_queue.length
        = cs.db.sync_queue.length
    ∧ (∀ it ∈ batch, bumpRetry it batchFailMsg cfg.now it
        ∈ (processOneBatch cfg uuids transport cs batch).db.sync_queue)
    ∧ (batch :: rest).foldl (processOneBatch cfg uuids transport) cs
        = rest.foldl (processOneBatch cfg uuids transport)
            (processOneBatch cfg uuids transport cs batch) := by
  have heq : processOneBatch cfg uuids transport cs batch
      = { failBatch cfg cs batch with
          result := { (failBatch cfg cs batch).result with success := false } } := by
    simp only [processOneBatch, hfail]
  refine ⟨?_, ?_, ?_, ?_, ?_, List.foldl_cons _ _⟩
  · rw [heq]
    exact failBatch_failed cfg batch cs
  · rw [heq]
    exact failBatch_synced cfg batch cs
  · rw [heq]
  · rw [heq]
    show (failBatch cfg cs batch).db.sync_queue.length = cs.db.sync_queue.length
    rw [failBatch_db]
    exact foldl_failStepDb_queue_length cfg batch cs.db
  · intro it hit
    rw [heq]
    show bumpRetry it batchFailMsg cfg.now it ∈ (failBatch cfg cs batch).db.sync_queue
    rw [failBatch_db]
    exact foldl_failStepDb_bump cfg batch cs.db it hit hnd (hsub it hit)

/-! ## Concrete scenario states for the witnesses -/

/-- The all-zero cycle result `sync` starts from. -/
def exResult0 : SyncResult := { success := true, synced_items := 0, failed_items := 0, errors := [] }

/-- Cycle state over `exDb`. -/
def exCs : CycleState := { db := exDb, result := exResult0, uuidIdx := 0 }

/-- A bare `success` verdict for `q1` (no resolved data, no server id). -/
def exProcessedSuccess : ProcessedItem := { client_id := "q1", status := .success }

/-- A transport that always raises. -/
def exTransportDown : BatchSyncRequest → Option BatchSyncResponse := fun _ => none

/-- Local task of the conflict scenario, `updated_at = 2`. -/
def exLocal : Task :=
  { id := "t1", title := "a", description := "", completed := false, is_deleted := false
    created_at := 0, updated_at := 2, sync_status := .pending }

/-- Server copy of the conflict scenario, `updated_at = 1` (stale). -/
def exServer : Task :=
  { id := "t1", server_id := some "s1", title := "b", description := "", completed := true
    is_deleted := false, created_at := 0, updated_at := 1, sync_status := .synced }

/-- Store for the local-wins conflict scenario. -/
def exDbConflict : DbState := { tasks := [exLocal], sync_queue := [exItem] }

/-- Cycle state over `exDbConflict`. -/
def exCsConflict : CycleState := { db := exDbConflict, result := exResult0, uuidIdx := 0 }

/-- A `conflict` verdict for `q1` carrying the stale server copy. -/
def exProcessedConflict : ProcessedItem :=
  { client_id := "q1", status := .conflict, resolved_data := some exServer }

/-- A soft-deleted task row (pending `delete`). -/
def exDeletedTask : Task :=
  { id := "t1", title := "a", description := "", completed := false, is_deleted := true
    created_at := 0, updated_at := 0, sync_status := .pending }

/-- Store whose only `t1` row is soft-deleted. -/
def exDbDeleted : DbState := { tasks := [exDeletedTask], sync_queue := [exItem] }

/-- Cycle state over `exDbDeleted`. -/
def exCsDeleted : CycleState := { db := exDbDeleted, result := exResult0, uuidIdx := 0 }

/-- A `conflict` verdict for `q1` with no resolved data. -/
def exProcessedConflictBare : ProcessedItem := { client_id := "q1", status := .conflict }

/-- C3 witness: retry accounting at a concrete store and item. -/
theorem c3_handleSyncError_accounting_witness :
    bumpRetry exItem "boom" 100 exItem ∈ (handleSyncError exDb exItem "boom" 100 3).sync_queue :=
  (c3_handleSyncError_accounting exDb exItem "boom" 100 3 (List.mem_singleton_self exItem)).1

/-- C4 witness: the success verdict at a concrete state increments the
synced count. -/
theorem c4_success_verdict_witness :
    (processServerItem exCfg exUuids [exItem] exCs exProcessedSuccess).result.synced_items
      = exCs.result.synced_items + 1 :=
  (c4_success_verdict exCfg exUuids [exItem] exCs exProcessedSuccess exItem rfl rfl).2.1

/-- C5 witness: a raised transport call at a concrete one-item batch
counts the item as failed. -/
theorem c5_batch_transport_failure_witness :
    (processOneBatch exCfg exUuids exTransportDown exCs [exItem]).result.failed_items
      = exCs.result.failed_items + [exItem].length :=
  (c5_batch_transport_failure exCfg exUuids exTransportDown exCs [exItem] [] rfl
    (by simp) (fun _ hit => hit)).1

/-- C7 witness: at a concrete local-wins conflict, the fresh `update` item
with the local snapshot is in the queue afterwards. -/
theorem c7_conflict_local_wins_witness :
    newQueueItem (exUuids exCsConflict.uuidIdx) exLocal.id Operation.update
        (localSnapshotJson exLocal) exCfg.now
      ∈ (processServerItem exCfg exUuids [exItem] exCsConflict exProcessedConflict).db.sync_queue :=
  (c7_conflict_local_wins exCfg exUuids [exItem] exCsConflict exProcessedConflict exItem
    exLocal exServer rfl rfl rfl rfl rfl (List.mem_singleton_self exItem)).2.1

/-- C9 witness: the poison transition at a concrete store refreshes
`last_synced_at`. -/
theorem c9_poison_refreshes_last_synced_at_witness :
    (handleSyncError exDb exItem "boom" 100 1).tasks
      = exDb.tasks.map (fun t =>
          if t.id = exItem.task_id then
            { t with sync_status := SyncStatus.error, last_synced_at := some 100 }
          else t) :=
  (c9_poison_refreshes_last_synced_at exDb exItem "boom" 100 1 (by decide)).1

/-- C10 witness: with the only `t1` row soft-deleted, `getTask` returns
`none` on the conflict path. -/
theorem c10_conflict_soft_deleted_witness :
    getTask exCsDeleted.db exItem.task_id = none :=
  (c10_conflict_soft_deleted exCfg exUuids [exItem] exCsDeleted exProcessedConflictBare exItem
    rfl rfl (fun t ht _ => by rcases List.mem_singleton.mp ht with rfl; rfl)).1

end SyncSpec


